import Mathlib

/-!
Verification development for the LLGL rendering-layer sources.

Shallow embedding of the pure parts of the repository:
* `Renderer/TextureFlags.cpp` — MIP-level and MIP-extent math;
* `Core/UTF8String.cpp` / `Container/UTF8String.h` — the UTF-8 string
  container, its wide-character conversions and buffer invariant;
* `Platform/Linux/LinuxDisplay.cpp` — display-mode enumeration and
  display-mode switching;
* `Renderer/OpenGL/Platform/Android/AndroidGLContext.cpp` — multisample
  configuration selection.

Machine integers (`std::uint32_t`, `std::size_t`, byte values) are modelled
as `Nat`; every arithmetic operation performed by the embedded code on its
reachable inputs stays far below any wrap-around boundary, so no explicit
`% 2^w` is needed except where noted.
-/

namespace LLGL

/-! ### Texture types and extents (`LLGL/TextureFlags.h`, `Renderer/TextureFlags.cpp`) -/

/-- The `TextureType` enumeration. Order of constructors follows the C++
enum; `Texture2DMS` and `Texture2DMSArray` are the multisample types. -/
inductive TextureType where
  | Texture1D
  | Texture2D
  | Texture3D
  | TextureCube
  | Texture1DArray
  | Texture2DArray
  | TextureCubeArray
  | Texture2DMS
  | Texture2DMSArray
  deriving DecidableEq, Repr

/-- 3-dimensional extent of `std::uint32_t` components. -/
structure Extent3D where
  x : Nat
  y : Nat
  z : Nat
  deriving DecidableEq, Repr

/-- `IsMultiSampleTexture` from `TextureFlags.cpp`: `type >= Texture2DMS`. -/
def IsMultiSampleTexture (type : TextureType) : Bool :=
  match type with
  | .Texture2DMS => true
  | .Texture2DMSArray => true
  | _ => false

/-- `NumMipLevels(width, height, depth)` from `TextureFlags.cpp`:
`1 + (uint32)std::log2(max(w,h,d))`.  For `max ≥ 1` (the defined domain;
`log2(0)` is undefined behaviour in the source) the double-precision
`std::log2` followed by the truncating cast computes exactly
`Nat.log2 (max w (max h d))`: for 32-bit inputs the fractional distance of
`log2 n` from the nearest integer is at least `2^-32/ln 2`, far above the
rounding error of a correctly rounded `log2`. -/
def NumMipLevels3 (width height depth : Nat) : Nat :=
  1 + Nat.log2 (max width (max height depth))

/-- The one- and two-argument overloads use default arguments `1`. -/
def NumMipLevels1 (width : Nat) : Nat :=
  NumMipLevels3 width 1 1

def NumMipLevels2 (width height : Nat) : Nat :=
  NumMipLevels3 width height 1

/-- `NumMipLevels(TextureType, Extent3D)` from `TextureFlags.cpp`. -/
def NumMipLevelsTyped (type : TextureType) (extent : Extent3D) : Nat :=
  match type with
  | .Texture1D => NumMipLevels1 extent.x
  | .Texture2D => NumMipLevels2 extent.x extent.y
  | .Texture3D => NumMipLevels3 extent.x extent.y extent.z
  | .TextureCube => NumMipLevels2 extent.x extent.y
  | .Texture1DArray => NumMipLevels1 extent.x
  | .Texture2DArray => NumMipLevels2 extent.x extent.y
  | .TextureCubeArray => NumMipLevels2 extent.x extent.y
  | .Texture2DMS => 1
  | .Texture2DMSArray => 1

/-- The subset of `TextureDescriptor` fields consumed by the embedded
functions (`type`, `extent`, `arrayLayers`, `mipLevels`). -/
structure TextureDescriptor where
  type : TextureType
  extent : Extent3D
  arrayLayers : Nat
  mipLevels : Nat
  deriving DecidableEq, Repr

/-- `NumMipLevels(const TextureDescriptor&)` from `TextureFlags.cpp`:
returns the descriptor's explicit `mipLevels` unless it is `0` (full chain). -/
def NumMipLevelsDesc (textureDesc : TextureDescriptor) : Nat :=
  if textureDesc.mipLevels = 0 then
    NumMipLevelsTyped textureDesc.type textureDesc.extent
  else
    textureDesc.mipLevels

/-- `MipExtent(extent, mipLevel)` from `TextureFlags.cpp`:
`max(1u, extent >> mipLevel)`.  (The source only ever calls this with
`mipLevel < NumMipLevels ≤ 32`, so the C++ shift is well defined there.) -/
def MipExtent (extent mipLevel : Nat) : Nat :=
  max 1 (extent >>> mipLevel)

/-- `GetMipExtent(TextureType, Extent3D, uint32 mipLevel)` from
`TextureFlags.cpp`.  Out-of-range levels fall through to the
value-initialised `Extent3D{}` = `{0,0,0}`. -/
def GetMipExtent (type : TextureType) (extent : Extent3D) (mipLevel : Nat) : Extent3D :=
  if mipLevel < NumMipLevelsTyped type extent then
    match type with
    | .Texture1D => ⟨MipExtent extent.x mipLevel, 1, 1⟩
    | .Texture2D => ⟨MipExtent extent.x mipLevel, MipExtent extent.y mipLevel, 1⟩
    | .Texture3D => ⟨MipExtent extent.x mipLevel, MipExtent extent.y mipLevel, MipExtent extent.z mipLevel⟩
    | .TextureCube => ⟨MipExtent extent.x mipLevel, MipExtent extent.y mipLevel, extent.z⟩
    | .Texture1DArray => ⟨MipExtent extent.x mipLevel, extent.y, 1⟩
    | .Texture2DArray => ⟨MipExtent extent.x mipLevel, MipExtent extent.y mipLevel, extent.z⟩
    | .TextureCubeArray => ⟨MipExtent extent.x mipLevel, MipExtent extent.y mipLevel, extent.z⟩
    | .Texture2DMS => ⟨extent.x, extent.y, 1⟩
    | .Texture2DMSArray => ⟨extent.x, extent.y, extent.z⟩
  else
    ⟨0, 0, 0⟩

/-- Modelled from the spec: `GetAlignedSize(size, alignment)` lives in
`Core/CoreUtils.h`, which is not among the provided sources; the spec states
that cube-array layer counts are "rounded up to multiples of 6", so the
function rounds `size` up to the next multiple of `alignment`. -/
def GetAlignedSize (size alignment : Nat) : Nat :=
  if size % alignment = 0 then size else size + alignment - size % alignment

/-- `GetMipExtent(const TextureDescriptor&, uint32 mipLevel)` from
`TextureFlags.cpp`.  Note the range guard uses `NumMipLevels(type, extent)`
(the full chain), not the descriptor's explicit `mipLevels`. -/
def GetMipExtentDesc (textureDesc : TextureDescriptor) (mipLevel : Nat) : Extent3D :=
  let extent := textureDesc.extent
  if mipLevel < NumMipLevelsTyped textureDesc.type extent then
    let arrayLayers := textureDesc.arrayLayers
    match textureDesc.type with
    | .Texture1D => ⟨MipExtent extent.x mipLevel, 1, 1⟩
    | .Texture2D => ⟨MipExtent extent.x mipLevel, MipExtent extent.y mipLevel, 1⟩
    | .Texture3D => ⟨MipExtent extent.x mipLevel, MipExtent extent.y mipLevel, MipExtent extent.z mipLevel⟩
    | .TextureCube => ⟨MipExtent extent.x mipLevel, MipExtent extent.y mipLevel, 6⟩
    | .Texture1DArray => ⟨MipExtent extent.x mipLevel, arrayLayers, 1⟩
    | .Texture2DArray => ⟨MipExtent extent.x mipLevel, MipExtent extent.y mipLevel, arrayLayers⟩
    | .TextureCubeArray => ⟨MipExtent extent.x mipLevel, MipExtent extent.y mipLevel, GetAlignedSize arrayLayers 6⟩
    | .Texture2DMS => ⟨extent.x, extent.y, 1⟩
    | .Texture2DMSArray => ⟨extent.x, extent.y, arrayLayers⟩
  else
    ⟨0, 0, 0⟩

/-! ### UTF-8 string container (`Container/UTF8String.h`, `Core/UTF8String.cpp`)

Bytes (`char` read back as `unsigned char`) and wide characters (`wchar_t`,
32-bit on Linux) are modelled as `Nat`; every value produced by the embedded
code fits its C++ type, so no wrap-around modelling is needed. -/

/-- `UTF8String::GetUTF8CharCount(int c)` from `Container/UTF8String.h`:
number of bytes the encoder emits for one code point.  Note the source's
strict comparisons `c < 0x07FF` and `c < 0xFFFF` (its comments claim the
inclusive ranges `U+0080 ... U+07FF` and `U+0800 ... U+FFFF`). -/
def GetUTF8CharCount (c : Nat) : Nat :=
  if c < 0x0080 then 1
  else if c < 0x07FF then 2
  else if c < 0xFFFF then 3
  else 4

/-- `UTF8String::AppendUTF8Character(SmallVector<char>&, int code)` from
`Container/UTF8String.h`, modelled as the list of bytes it appends. -/
def AppendUTF8Character (code : Nat) : List Nat :=
  if code < 0x0080 then
    [code]
  else if code < 0x07FF then
    [0xC0 ||| ((code >>> 6) &&& 0x1F),
     0x80 ||| (code &&& 0x3F)]
  else if code < 0xFFFF then
    [0xE0 ||| ((code >>> 12) &&& 0x0F),
     0x80 ||| ((code >>> 6) &&& 0x3F),
     0x80 ||| (code &&& 0x3F)]
  else
    [0xF0 ||| ((code >>> 18) &&& 0x07),
     0x80 ||| ((code >>> 12) &&& 0x3F),
     0x80 ||| ((code >>> 6) &&& 0x3F),
     0x80 ||| (code &&& 0x3F)]

/-- `UTF8String::ConvertWStringViewToUTF8CharArray` from
`Container/UTF8String.h`: encodes every wide character and appends the
terminating NUL byte (`reserve` has no observable effect and is omitted). -/
def ConvertWStringViewToUTF8CharArray (s : List Nat) : List Nat :=
  (s.map AppendUTF8Character).flatten ++ [0]

/-- The decoding loop of `ConvertToUTF16WCharArray` from
`Core/UTF8String.cpp`, over the bytes of the input view.  A lead byte of the
form `11110xxx` (or any other byte failing the three tested patterns) hits
`LLGL_TRAP`, modelled as `none`.  A multi-byte sequence truncated at the end
of the view makes the source read past `s.end()` (undefined behaviour);
that case is also modelled as `none` and is unreachable from well-formed
encoder output. -/
def ConvertToUTF16Loop : List Nat → Option (List Nat)
  | [] => some []
  | c :: it =>
    if c &&& 0x80 = 0x00 then
      (ConvertToUTF16Loop it).map (fun utf16 => c :: utf16)
    else if c &&& 0xE0 = 0xC0 then
      match it with
      | c1 :: it' =>
          (ConvertToUTF16Loop it').map
            (fun utf16 => (((c &&& 0x1F) <<< 5) ||| (c1 &&& 0x3F)) :: utf16)
      | [] => none
    else if c &&& 0xF0 = 0xE0 then
      match it with
      | c1 :: c2 :: it' =>
          (ConvertToUTF16Loop it').map
            (fun utf16 =>
              ((((c &&& 0x0F) <<< 12) ||| ((c1 &&& 0x3F) <<< 6)) ||| (c2 &&& 0x3F)) :: utf16)
      | [_] => none
      | [] => none
    else
      none

/-- `ConvertToUTF16WCharArray(const StringView&)` from `Core/UTF8String.cpp`:
decodes the view and appends the terminating `L'\0'`. -/
def ConvertToUTF16WCharArray (s : List Nat) : Option (List Nat) :=
  (ConvertToUTF16Loop s).map (fun utf16 => utf16 ++ [0])

/-- `UTF8String::ConvertStringViewToCharArray` from `Container/UTF8String.h`:
copies the view's bytes and appends the terminating NUL. -/
def ConvertStringViewToCharArray (str : List Nat) : List Nat :=
  str ++ [0]

/-- The `UTF8String` container: its single field is the internal
`SmallVector<char> data_`.  `SmallVector` is a dynamic array with the usual
`std::vector` semantics for `pop_back`/`push_back`/`resize`/`insert`
(`Container/SmallVector.h` is not among the provided sources); its contents
are modelled as a byte list, its capacity is not observable. -/
structure UTF8String where
  data_ : List Nat
  deriving DecidableEq, Repr

namespace UTF8String

/-- The default constructor `UTF8String() : data_{ '\0' }`. -/
def empty : UTF8String := ⟨[0]⟩

/-- The constructor `UTF8String(const StringView&)`. -/
def fromStringView (str : List Nat) : UTF8String :=
  ⟨ConvertStringViewToCharArray str⟩

/-- The constructor `UTF8String(const WStringView&)`. -/
def fromWStringView (str : List Nat) : UTF8String :=
  ⟨ConvertWStringViewToUTF8CharArray str⟩

/-- `UTF8String::size()`: `data_.size() - 1`. -/
def size (s : UTF8String) : Nat :=
  s.data_.length - 1

/-- `UTF8String::clear()`: `data_ = { '\0' }`. -/
def clear (_ : UTF8String) : UTF8String := ⟨[0]⟩

/-- `std::vector`-style `resize(n, ch)` on the raw byte list: truncate to
`n` elements or pad with `ch` up to `n` elements. -/
def vectorResize (l : List Nat) (n : Nat) (ch : Nat) : List Nat :=
  if n ≤ l.length then l.take n else l ++ List.replicate (n - l.length) ch

/-- `UTF8String::resize(size, ch)` from `Core/UTF8String.cpp`: when the size
changes, pop the trailing NUL, resize the payload, push the NUL back
(`reserve` is not observable). -/
def resize (s : UTF8String) (sz : Nat) (ch : Nat) : UTF8String :=
  if sz ≠ s.size then
    ⟨vectorResize s.data_.dropLast sz ch ++ [0]⟩
  else
    s

/-- `UTF8String::append(size_type count, char ch)`:
`resize(size() + count, ch)`. -/
def appendFill (s : UTF8String) (count : Nat) (ch : Nat) : UTF8String :=
  s.resize (s.size + count) ch

/-- `UTF8String::append(const char* first, const char* last)`: when the
range is non-empty, pop the trailing NUL, insert the range, push the NUL
back.  The pointer range `[first, last)` is modelled as the byte list it
denotes. -/
def appendRange (s : UTF8String) (bytes : List Nat) : UTF8String :=
  if 0 < bytes.length then
    ⟨s.data_.dropLast ++ bytes ++ [0]⟩
  else
    s

/-- Copy assignment `operator = (const UTF8String&)`: `data_ = rhs.data_`. -/
def assignCopy (_ : UTF8String) (rhs : UTF8String) : UTF8String :=
  ⟨rhs.data_⟩

/-- Move assignment `operator = (UTF8String&&)`: the target takes the
source's buffer, the source is cleared; returns (target, source). -/
def assignMove (_ : UTF8String) (rhs : UTF8String) : UTF8String × UTF8String :=
  (⟨rhs.data_⟩, rhs.clear)

/-- `UTF8String::substr(pos, count)` from `Core/UTF8String.cpp`:
`LLGL_TRAP` (modelled as `none`) when `pos > size()`; otherwise clamps
`count` to `size() - pos` and copies that slice of the buffer starting at
`&data_[pos]` through the `StringView` constructor. -/
def substr (s : UTF8String) (pos : Nat) (count : Nat) : Option UTF8String :=
  if s.size < pos then
    none
  else
    some (fromStringView ((s.data_.drop pos).take (min count (s.size - pos))))

/-- `UTF8String::to_utf16()`:
`ConvertToUTF16WCharArray(StringView{ c_str(), size() })`, i.e. decoding of
the payload bytes without the trailing NUL. -/
def to_utf16 (s : UTF8String) : Option (List Nat) :=
  ConvertToUTF16WCharArray s.data_.dropLast

end UTF8String

/-- The constructors a `UTF8String` can be created from (the `char*` /
`wchar_t*` / templated-string constructors delegate to the view ones). -/
inductive UTF8Ctor where
  | empty : UTF8Ctor
  | fromStringView (str : List Nat) : UTF8Ctor
  | fromWStringView (str : List Nat) : UTF8Ctor

/-- Build the string a constructor produces. -/
def UTF8Ctor.build : UTF8Ctor → UTF8String
  | .empty => UTF8String.empty
  | .fromStringView str => UTF8String.fromStringView str
  | .fromWStringView str => UTF8String.fromWStringView str

/-- One mutating `UTF8String` operation.  Assignment (copy or move) takes
its right-hand side from a constructed string; `assignMoveSource` is the
state of the right-hand side object after being moved from. -/
inductive UTF8Op where
  | resize (sz ch : Nat) : UTF8Op
  | appendFill (count ch : Nat) : UTF8Op
  | appendRange (bytes : List Nat) : UTF8Op
  | clear : UTF8Op
  | assignCopy (rhs : UTF8Ctor) : UTF8Op
  | assignMove (rhs : UTF8Ctor) : UTF8Op
  | assignMoveSource (target : UTF8Ctor) : UTF8Op

/-- Apply one operation to a string state. -/
def UTF8Op.apply (s : UTF8String) : UTF8Op → UTF8String
  | .resize sz ch => s.resize sz ch
  | .appendFill count ch => s.appendFill count ch
  | .appendRange bytes => s.appendRange bytes
  | .clear => s.clear
  | .assignCopy rhs => s.assignCopy rhs.build
  | .assignMove rhs => (s.assignMove rhs.build).1
  | .assignMoveSource target => (target.build.assignMove s).2

/-- The buffer invariant of the claim: the internal buffer holds exactly
`size() + 1` bytes and `c_str()[size()]` — the last buffer byte — is NUL. -/
def BufferInvariant (s : UTF8String) : Prop :=
  s.data_.length = s.size + 1 ∧ s.data_.getLast? = some 0

/-! ### Display modes (`LLGL/Display.h`, `Platform/Linux/LinuxDisplay.cpp`) -/

/-- 2-dimensional extent (`resolution`). -/
structure Extent2D where
  width : Nat
  height : Nat
  deriving DecidableEq, Repr

/-- `DisplayMode` (`LLGL/DisplayFlags.h`): a resolution and a refresh rate. -/
structure DisplayMode where
  resolution : Extent2D
  refreshRate : Nat
  deriving DecidableEq, Repr

/-- The sort relation documented for `GetSupportedDisplayModes` in
`LLGL/Display.h`: first criterion pixel count (width times height)
ascending, second criterion refresh rate ascending. -/
def DisplayModeLE (lhs rhs : DisplayMode) : Prop :=
  lhs.resolution.width * lhs.resolution.height < rhs.resolution.width * rhs.resolution.height ∨
    (lhs.resolution.width * lhs.resolution.height = rhs.resolution.width * rhs.resolution.height ∧
      lhs.refreshRate ≤ rhs.refreshRate)

instance : DecidableRel DisplayModeLE := by
  intro a b
  unfold DisplayModeLE
  infer_instance

instance : IsTotal DisplayMode DisplayModeLE := by
  constructor
  intro a b
  unfold DisplayModeLE
  omega

instance : IsTrans DisplayMode DisplayModeLE := by
  constructor
  intro a b c
  unfold DisplayModeLE
  omega

/-- Modelled from the spec: `Display::FinalizeDisplayModes` is implemented
in `Platform/Display.cpp`, which is not among the provided sources.  Per the
spec and the `LLGL/Display.h` documentation it sorts the list ascending by
`(width*height, refreshRate)` and removes duplicate entries. -/
def FinalizeDisplayModes (displayModes : List DisplayMode) : List DisplayMode :=
  (displayModes.insertionSort DisplayModeLE).dedup

/-- `LinuxDisplay::GetSupportedDisplayModes` from `LinuxDisplay.cpp`:
collects one mode per `(screen size, rate)` pair reported by Xrandr
(`XRRSizes` / `XRRRates`, modelled as the input list), then applies
`FinalizeDisplayModes`. -/
def GetSupportedDisplayModes (scrSizes : List (Extent2D × List Nat)) : List DisplayMode :=
  FinalizeDisplayModes
    ((scrSizes.map (fun sz => sz.2.map (fun rate => DisplayMode.mk sz.1 rate))).flatten)

/-- The X11/Xrandr environment `LinuxDisplay::SetDisplayMode` runs against:
the screen sizes reported by `XRRSizes`, and per-loop-iteration results of
`XRRGetScreenInfo` (null or not) and `XRRSetScreenConfig` (`Status`,
`true` meaning nonzero). -/
structure X11Env where
  scrSizes : List Extent2D
  getScreenInfoOk : Nat → Bool
  setScreenConfigStatus : Nat → Bool

/-- The loop of `LinuxDisplay::SetDisplayMode`, iterating over the screen
sizes starting at index `i`.  Returns the function's boolean result paired
with the list of indices at which `XRRSetScreenConfig` was invoked (the
side-effecting call that changes the display state). -/
def SetDisplayModeLoop (env : X11Env) (displayMode : DisplayMode) :
    Nat → List Extent2D → Bool × List Nat
  | _, [] => (false, [])
  | i, scrSize :: rest =>
    if displayMode.resolution.width = scrSize.width ∧
        displayMode.resolution.height = scrSize.height then
      if env.getScreenInfoOk i then
        (env.setScreenConfigStatus i, [i])
      else
        SetDisplayModeLoop env displayMode (i + 1) rest
    else
      SetDisplayModeLoop env displayMode (i + 1) rest

/-- `LinuxDisplay::SetDisplayMode` from `LinuxDisplay.cpp`. -/
def SetDisplayMode (env : X11Env) (displayMode : DisplayMode) : Bool × List Nat :=
  SetDisplayModeLoop env displayMode 0 env.scrSizes

/-! ### EGL multisample configuration selection
(`Renderer/OpenGL/Platform/Android/AndroidGLContext.cpp`) -/

/-- The probe loop of `AndroidGLContext::SelectConfig`: starting at a
candidate sample count, decrement until `eglChooseConfig` (modelled as the
`supported` oracle) accepts one; `none` when the loop exhausts all counts
down to 1.  The returned value is the member `samples_` at loop exit. -/
def SelectConfigLoop (supported : Nat → Bool) : Nat → Option Nat
  | 0 => none
  | k + 1 => if supported (k + 1) then some (k + 1) else SelectConfigLoop supported k

/-- `AndroidGLContext::SelectConfig`, restricted to its sample-count
negotiation: the loop starts at `max(1, pixelFormat.samples)`. -/
def SelectConfig (supported : Nat → Bool) (samples : Nat) : Option Nat :=
  SelectConfigLoop supported (max 1 samples)

end LLGL

/-! ## Theorems -/

namespace LLGL

/-- C3: for every extent `(w,h,d)` with `w,h,d ≥ 1`, `NumMipLevels(w,h,d)`
equals `1 + floor(log2(max(w,h,d)))`; in particular, when `max(w,h,d) = 2^k`
it equals `k+1`, and when `max(w,h,d) = 1` it equals `1`. -/
theorem numMipLevels_eq_one_add_floor_log2 (w h d : Nat)
    (_hw : 1 ≤ w) (_hh : 1 ≤ h) (_hd : 1 ≤ d) :
    NumMipLevels3 w h d = 1 + Nat.log 2 (max w (max h d)) ∧
    (∀ k, max w (max h d) = 2 ^ k → NumMipLevels3 w h d = k + 1) ∧
    (max w (max h d) = 1 → NumMipLevels3 w h d = 1) := by
  unfold NumMipLevels3
  refine ⟨by rw [Nat.log2_eq_log_two], ?_, ?_⟩
  · intro k hk
    rw [hk, Nat.log2_eq_log_two, Nat.log_pow (by norm_num)]
    omega
  · intro hk
    rw [hk]
    simp [Nat.log2]

/-- Witness for C3 at the concrete extent `(4,2,1)` (maximum `4 = 2^2`). -/
theorem numMipLevels_eq_one_add_floor_log2_witness :
    NumMipLevels3 4 2 1 = 1 + Nat.log 2 (max 4 (max 2 1)) ∧
    (∀ k, max 4 (max 2 1) = 2 ^ k → NumMipLevels3 4 2 1 = k + 1) ∧
    (max 4 (max 2 1) = 1 → NumMipLevels3 4 2 1 = 1) :=
  numMipLevels_eq_one_add_floor_log2 4 2 1 (by decide) (by decide) (by decide)

/-- C4: for every texture type, extent and MIP level `L` at or beyond
`NumMipLevels(type, extent)`, `GetMipExtent` returns the zero extent. -/
theorem getMipExtent_out_of_range (type : TextureType) (extent : Extent3D)
    (mipLevel : Nat) (h : NumMipLevelsTyped type extent ≤ mipLevel) :
    GetMipExtent type extent mipLevel = ⟨0, 0, 0⟩ := by
  unfold GetMipExtent
  rw [if_neg (by omega)]

/-- Witness for C4: level 7 of a 64×64 2D texture (7 MIP levels) is the
zero extent. -/
theorem getMipExtent_out_of_range_witness :
    GetMipExtent .Texture2D ⟨64, 64, 1⟩ 7 = ⟨0, 0, 0⟩ :=
  getMipExtent_out_of_range .Texture2D ⟨64, 64, 1⟩ 7
    (by simp [NumMipLevelsTyped, NumMipLevels2, NumMipLevels3, Nat.log2])

/-- C2 counterexample: for the multisample type `Texture2DMS` at MIP level 1
(an out-of-range level other than 0), `GetMipExtent` does not return the
input extent unchanged — it returns the zero extent. -/
theorem getMipExtent_multisample_counterexample :
    GetMipExtent .Texture2DMS ⟨4, 4, 1⟩ 1 = ⟨0, 0, 0⟩ ∧
    GetMipExtent .Texture2DMS ⟨4, 4, 1⟩ 1 ≠ ⟨4, 4, 1⟩ := by
  decide

/-- C2 amended: for multisample texture types `GetMipExtent` keeps the
width and height unchanged at level 0 (with the third component forced to 1
for `Texture2DMS` and kept for `Texture2DMSArray`), and returns the zero
extent for every level other than 0. -/
theorem getMipExtent_multisample (type : TextureType) (extent : Extent3D)
    (mipLevel : Nat) (hms : IsMultiSampleTexture type = true) :
    (mipLevel = 0 →
      GetMipExtent type extent mipLevel =
        ⟨extent.x, extent.y, if type = .Texture2DMSArray then extent.z else 1⟩) ∧
    (1 ≤ mipLevel → GetMipExtent type extent mipLevel = ⟨0, 0, 0⟩) := by
  cases type <;> simp only [IsMultiSampleTexture] at hms <;> try exact absurd hms (by decide)
  all_goals
    refine ⟨fun h0 => ?_, fun h1 => ?_⟩
  · subst h0; simp [GetMipExtent, NumMipLevelsTyped]
  · unfold GetMipExtent
    rw [if_neg (by simp only [NumMipLevelsTyped]; omega)]
  · subst h0; simp [GetMipExtent, NumMipLevelsTyped]
  · unfold GetMipExtent
    rw [if_neg (by simp only [NumMipLevelsTyped]; omega)]

/-- Witness for C2 (amended) on `Texture2DMSArray` with extent `(4,4,7)`:
level 0 yields the extent unchanged, level 2 yields the zero extent. -/
theorem getMipExtent_multisample_witness :
    GetMipExtent .Texture2DMSArray ⟨4, 4, 7⟩ 0 = ⟨4, 4, 7⟩ ∧
    GetMipExtent .Texture2DMSArray ⟨4, 4, 7⟩ 2 = ⟨0, 0, 0⟩ := by
  constructor
  · have h := (getMipExtent_multisample .Texture2DMSArray ⟨4, 4, 7⟩ 0 rfl).1 rfl
    simpa using h
  · exact (getMipExtent_multisample .Texture2DMSArray ⟨4, 4, 7⟩ 2 rfl).2 (by decide)

/-- C9 counterexample: a multisample texture descriptor with an explicit
nonzero `mipLevels` field has a computed MIP level count other than 1
(`NumMipLevels(TextureDescriptor)` returns the field unchanged). -/
theorem numMipLevelsDesc_multisample_counterexample :
    NumMipLevelsDesc ⟨.Texture2DMS, ⟨4, 4, 1⟩, 1, 3⟩ = 3 ∧
    NumMipLevelsDesc ⟨.Texture2DMS, ⟨4, 4, 1⟩, 1, 3⟩ ≠ 1 := by
  decide

/-- C9 amended: for descriptors whose `mipLevels` field is 0 (derive the
full chain), multisample types have computed MIP count exactly 1; for
in-range MIP levels, the third `GetMipExtent` component of a
`TextureCubeArray` descriptor is `arrayLayers` rounded up to the next
multiple of 6, and that of a plain `TextureCube` is the fixed face count 6. -/
theorem mipLevels_and_cubeArray_layers (textureDesc : TextureDescriptor) (mipLevel : Nat) :
    (textureDesc.mipLevels = 0 → IsMultiSampleTexture textureDesc.type = true →
      NumMipLevelsDesc textureDesc = 1) ∧
    (textureDesc.type = .TextureCubeArray →
      mipLevel < NumMipLevelsTyped textureDesc.type textureDesc.extent →
      (GetMipExtentDesc textureDesc mipLevel).z = GetAlignedSize textureDesc.arrayLayers 6 ∧
      GetAlignedSize textureDesc.arrayLayers 6 = 6 * ((textureDesc.arrayLayers + 5) / 6)) ∧
    (textureDesc.type = .TextureCube →
      mipLevel < NumMipLevelsTyped textureDesc.type textureDesc.extent →
      (GetMipExtentDesc textureDesc mipLevel).z = 6) := by
  obtain ⟨ty, ext, layers, mips⟩ := textureDesc
  refine ⟨fun hmips hms => ?_, fun hty hlt => ?_, fun hty hlt => ?_⟩
  · subst hmips
    cases ty <;> simp_all [NumMipLevelsDesc, NumMipLevelsTyped, IsMultiSampleTexture]
  · subst hty
    unfold GetMipExtentDesc
    refine ⟨by rw [if_pos hlt], ?_⟩
    unfold GetAlignedSize
    split <;> omega
  · subst hty
    unfold GetMipExtentDesc
    rw [if_pos hlt]

/-- Witness for C9 (amended): a multisample descriptor with `mipLevels = 0`
has MIP count 1; a 7-layer cube array reports 12 layers (7 rounded up to 12)
at MIP level 2; a plain cube reports 6. -/
theorem mipLevels_and_cubeArray_layers_witness :
    NumMipLevelsDesc ⟨.Texture2DMS, ⟨4, 4, 1⟩, 1, 0⟩ = 1 ∧
    (GetMipExtentDesc ⟨.TextureCubeArray, ⟨8, 8, 1⟩, 7, 0⟩ 2).z = GetAlignedSize 7 6 ∧
    (GetMipExtentDesc ⟨.TextureCube, ⟨8, 8, 1⟩, 1, 0⟩ 1).z = 6 := by
  refine ⟨(mipLevels_and_cubeArray_layers ⟨.Texture2DMS, ⟨4, 4, 1⟩, 1, 0⟩ 0).1 rfl rfl,
    ((mipLevels_and_cubeArray_layers ⟨.TextureCubeArray, ⟨8, 8, 1⟩, 7, 0⟩ 2).2.1 rfl ?_).1,
    (mipLevels_and_cubeArray_layers ⟨.TextureCube, ⟨8, 8, 1⟩, 1, 0⟩ 1).2.2 rfl ?_⟩
  · simp [NumMipLevelsTyped, NumMipLevels2, NumMipLevels3, Nat.log2]
  · simp [NumMipLevelsTyped, NumMipLevels2, NumMipLevels3, Nat.log2]

/-! ### UTF-8 string theorems -/

/-- The buffer invariant is equivalent to the buffer being a payload
followed by a single trailing NUL byte. -/
theorem bufferInvariant_iff (s : UTF8String) :
    BufferInvariant s ↔ ∃ payload, s.data_ = payload ++ [0] := by
  constructor
  · rintro ⟨hlen, hlast⟩
    exact ⟨s.data_.dropLast, (List.dropLast_append_getLast? 0 hlast).symm⟩
  · rintro ⟨payload, hp⟩
    refine ⟨?_, ?_⟩
    · simp [UTF8String.size, hp]
    · rw [hp, List.getLast?_concat]

/-- Every `UTF8String` constructor establishes the NUL-terminated layout. -/
theorem UTF8Ctor.build_nulTerminated (c : UTF8Ctor) :
    ∃ payload, c.build.data_ = payload ++ [0] := by
  cases c with
  | empty => exact ⟨[], rfl⟩
  | fromStringView str => exact ⟨str, rfl⟩
  | fromWStringView str => exact ⟨(str.map AppendUTF8Character).flatten, rfl⟩

/-- Every mutating operation preserves the NUL-terminated layout. -/
theorem UTF8Op.apply_nulTerminated (op : UTF8Op) (s : UTF8String)
    (hs : ∃ payload, s.data_ = payload ++ [0]) :
    ∃ payload, (UTF8Op.apply s op).data_ = payload ++ [0] := by
  obtain ⟨p, hp⟩ := hs
  cases op with
  | resize sz ch =>
    simp only [UTF8Op.apply, UTF8String.resize]
    split
    · exact ⟨_, rfl⟩
    · exact ⟨p, hp⟩
  | appendFill count ch =>
    simp only [UTF8Op.apply, UTF8String.appendFill, UTF8String.resize]
    split
    · exact ⟨_, rfl⟩
    · exact ⟨p, hp⟩
  | appendRange bytes =>
    simp only [UTF8Op.apply, UTF8String.appendRange]
    split
    · exact ⟨s.data_.dropLast ++ bytes, by simp⟩
    · exact ⟨p, hp⟩
  | clear => exact ⟨[], rfl⟩
  | assignCopy rhs => exact rhs.build_nulTerminated
  | assignMove rhs => exact rhs.build_nulTerminated
  | assignMoveSource target => exact ⟨[], rfl⟩

/-- C5: after any sequence of `resize`/`append`/`clear`/assignment
operations applied to a constructed `UTF8String`, the internal buffer holds
exactly `size() + 1` bytes and its last byte (`c_str()[size()]`) is NUL. -/
theorem utf8String_buffer_invariant (c : UTF8Ctor) (ops : List UTF8Op) :
    BufferInvariant (ops.foldl UTF8Op.apply c.build) := by
  rw [bufferInvariant_iff]
  induction ops generalizing c with
  | nil => exact c.build_nulTerminated
  | cons op rest ih =>
    have step : ∀ (t : UTF8String), (∃ payload, t.data_ = payload ++ [0]) →
        ∃ payload, (rest.foldl UTF8Op.apply t).data_ = payload ++ [0] := by
      clear ih
      induction rest with
      | nil => intro t ht; exact ht
      | cons op2 rest2 ih2 =>
        intro t ht
        exact ih2 _ (op2.apply_nulTerminated t ht)
    exact step _ (op.apply_nulTerminated c.build c.build_nulTerminated)

/-- C10: `substr(pos, count)` traps (returns `none`) exactly when
`pos > size()`; otherwise it returns the substring starting at `pos` of
length `min(count, size() - pos)` — an oversized `count` is clamped, not an
error. -/
theorem substr_spec (s : UTF8String) (pos count : Nat) (hinv : BufferInvariant s) :
    (s.size < pos → s.substr pos count = none) ∧
    (pos ≤ s.size →
      ∃ t, s.substr pos count = some t ∧
        t = UTF8String.fromStringView
              ((s.data_.dropLast.drop pos).take (min count (s.size - pos))) ∧
        t.size = min count (s.size - pos)) := by
  obtain ⟨p, hp⟩ := (bufferInvariant_iff s).mp hinv
  have hsize : s.size = p.length := by simp [UTF8String.size, hp]
  constructor
  · intro hgt
    simp only [UTF8String.substr, if_pos hgt]
  · intro hle
    have hm : min count (s.size - pos) ≤ (p.drop pos).length := by
      simp [hsize]
    have hslice : (s.data_.drop pos).take (min count (s.size - pos)) =
        (s.data_.dropLast.drop pos).take (min count (s.size - pos)) := by
      rw [hp, List.dropLast_concat,
        List.drop_append_of_le_length (by omega : pos ≤ p.length),
        List.take_append_of_le_length hm]
    have hsub : s.substr pos count =
        some (UTF8String.fromStringView
          ((s.data_.dropLast.drop pos).take (min count (s.size - pos)))) := by
      simp only [UTF8String.substr, if_neg (by omega : ¬ s.size < pos), hslice]
    refine ⟨_, hsub, rfl, ?_⟩
    simp only [UTF8String.size, UTF8String.fromStringView, ConvertStringViewToCharArray]
    rw [hp, List.dropLast_concat]
    simp [hsize]

/-- Witness for C10 on the two-byte string "HI": `substr(3, 0)` is out of
range, `substr(1, 99)` clamps the count and yields the length-1 suffix. -/
theorem substr_spec_witness :
    (UTF8String.fromStringView [72, 73]).substr 3 0 = none ∧
    ∃ t, (UTF8String.fromStringView [72, 73]).substr 1 99 = some t ∧
      t.size = 1 := by
  constructor
  · exact (substr_spec (UTF8String.fromStringView [72, 73]) 3 0 ⟨rfl, rfl⟩).1 (by decide)
  · obtain ⟨t, h1, _, h3⟩ :=
      (substr_spec (UTF8String.fromStringView [72, 73]) 1 99 ⟨rfl, rfl⟩).2 (by decide)
    exact ⟨t, h1, h3⟩

/-- C1 (code bug): the wide-string constructor followed by `to_utf16()` is
not the identity on code points in `[U+0000, U+FFFF]`.  The decoder
reassembles a two-byte sequence as `w0 << 5 | w1` where its own encoder uses
a 6-bit shift, so U+00E9 comes back as U+0069; and U+FFFF is encoded through
the four-byte branch (the `code < 0xFFFF` comparison excludes it from the
three-byte branch), which the decoder rejects with `LLGL_TRAP`. -/
theorem utf16_roundtrip_failure :
    (UTF8String.fromWStringView [0xE9]).to_utf16 = some [0x69, 0] ∧
    ([0x69, 0] : List Nat) ≠ [0xE9] ++ [0] ∧
    (UTF8String.fromWStringView [0xFFFF]).to_utf16 = none := by
  decide

/-! ### Display-mode and sample-count theorems -/

/-- C7: for every set of Xrandr-reported screen sizes and refresh rates, the
list returned by `GetSupportedDisplayModes` is sorted ascending by
`(width*height, refreshRate)` and contains no two equal
`(resolution, refreshRate)` entries. -/
theorem getSupportedDisplayModes_sorted_nodup (scrSizes : List (Extent2D × List Nat)) :
    (GetSupportedDisplayModes scrSizes).Sorted DisplayModeLE ∧
    (GetSupportedDisplayModes scrSizes).Nodup := by
  unfold GetSupportedDisplayModes FinalizeDisplayModes
  exact ⟨List.Pairwise.sublist (List.dedup_sublist _)
      (List.sorted_insertionSort DisplayModeLE _),
    List.nodup_dedup _⟩

/-- The `SetDisplayMode` loop never calls `XRRSetScreenConfig` when no
reported screen size matches the requested resolution. -/
theorem setDisplayModeLoop_no_match (env : X11Env) (mode : DisplayMode)
    (i : Nat) (sizes : List Extent2D)
    (h : ∀ sz ∈ sizes,
      ¬(mode.resolution.width = sz.width ∧ mode.resolution.height = sz.height)) :
    SetDisplayModeLoop env mode i sizes = (false, []) := by
  induction sizes generalizing i with
  | nil => rfl
  | cons sz rest ih =>
    have hsz := h sz (by simp)
    simp only [SetDisplayModeLoop, if_neg hsz]
    exact ih (i + 1) (fun a ha => h a (by simp [ha]))

/-- Every index at which the `SetDisplayMode` loop invokes
`XRRSetScreenConfig` carries a screen size matching the requested
resolution. -/
theorem setDisplayModeLoop_applied (env : X11Env) (mode : DisplayMode)
    (i : Nat) (sizes : List Extent2D) :
    ∀ j ∈ (SetDisplayModeLoop env mode i sizes).2,
      ∃ k, ∃ hk : k < sizes.length, j = i + k ∧
        mode.resolution.width = (sizes.get ⟨k, hk⟩).width ∧
        mode.resolution.height = (sizes.get ⟨k, hk⟩).height := by
  induction sizes generalizing i with
  | nil => intro j hj; simp [SetDisplayModeLoop] at hj
  | cons sz rest ih =>
    intro j hj
    simp only [SetDisplayModeLoop] at hj
    by_cases hmatch : mode.resolution.width = sz.width ∧ mode.resolution.height = sz.height
    · rw [if_pos hmatch] at hj
      by_cases hinfo : env.getScreenInfoOk i = true
      · rw [if_pos hinfo] at hj
        simp only [List.mem_singleton] at hj
        exact ⟨0, by simp, by omega, by simpa using hmatch.1, by simpa using hmatch.2⟩
      · rw [if_neg hinfo] at hj
        obtain ⟨k, hk, hjk, hw, hh⟩ := ih (i + 1) j hj
        exact ⟨k + 1, by simpa using hk, by omega, by simpa using hw, by simpa using hh⟩
    · rw [if_neg hmatch] at hj
      obtain ⟨k, hk, hjk, hw, hh⟩ := ih (i + 1) j hj
      exact ⟨k + 1, by simpa using hk, by omega, by simpa using hw, by simpa using hh⟩

/-- C8: when the requested display mode's resolution matches no reported
screen configuration, `SetDisplayMode` returns `false` and performs no
state-changing call (`XRRSetScreenConfig` is never invoked); and every
invocation it does perform is at an index whose screen size matches the
requested resolution. -/
theorem setDisplayMode_soft_failure (env : X11Env) (mode : DisplayMode) :
    ((∀ sz ∈ env.scrSizes,
        ¬(mode.resolution.width = sz.width ∧ mode.resolution.height = sz.height)) →
      SetDisplayMode env mode = (false, [])) ∧
    (∀ j ∈ (SetDisplayMode env mode).2,
      ∃ hj : j < env.scrSizes.length,
        mode.resolution.width = (env.scrSizes.get ⟨j, hj⟩).width ∧
        mode.resolution.height = (env.scrSizes.get ⟨j, hj⟩).height) := by
  constructor
  · intro h
    exact setDisplayModeLoop_no_match env mode 0 env.scrSizes h
  · intro j hj
    obtain ⟨k, hk, hjk, hw, hh⟩ := setDisplayModeLoop_applied env mode 0 env.scrSizes j hj
    have hjeq : j = k := by omega
    subst hjeq
    exact ⟨hk, hw, hh⟩

/-- Witness for C8: requesting 1920×1080 on a display reporting only
800×600 and 1024×768 returns `false` with no applied configuration. -/
theorem setDisplayMode_soft_failure_witness :
    SetDisplayMode ⟨[⟨800, 600⟩, ⟨1024, 768⟩], fun _ => true, fun _ => true⟩
      ⟨⟨1920, 1080⟩, 60⟩ = (false, []) :=
  (setDisplayMode_soft_failure _ _).1 (by decide)

/-- C6 counterexample: requesting 0 samples on a backend whose maximum is 8
yields the effective count 1 (the probe loop starts at `max(1, samples)`),
not `min(0, 8) = 0`. -/
theorem selectConfig_zero_counterexample :
    SelectConfig (fun k => decide (k ≤ 8)) 0 = some 1 ∧
    (some 1 : Option Nat) ≠ some (min 0 8) := by
  decide

/-- C6 amended: for every requested sample count ≥ 1, on a backend that
accepts exactly the sample counts up to its reported maximum `m ≥ 1`, the
effective sample count selected for context creation is
`min(requested, m)`; a requested count of 0 is first raised to 1. -/
theorem selectConfig_min (samples m : Nat) (hs : 1 ≤ samples) (hm : 1 ≤ m) :
    SelectConfig (fun k => decide (k ≤ m)) samples = some (min samples m) := by
  have loop : ∀ n, 1 ≤ n →
      SelectConfigLoop (fun k => decide (k ≤ m)) n = some (min n m) := by
    intro n
    induction n with
    | zero => intro h; omega
    | succ n ih =>
      intro _
      simp only [SelectConfigLoop]
      by_cases hnm : n + 1 ≤ m
      · rw [if_pos (by simpa using hnm)]
        congr 1
        omega
      · rw [if_neg (by simpa using hnm)]
        rw [ih (by omega)]
        congr 1
        omega
  unfold SelectConfig
  rw [Nat.max_eq_right hs]
  exact loop samples hs

/-- Witness for C6 (amended), matching the spec scenario: requesting 16
samples on a backend whose maximum is 8 yields 8. -/
theorem selectConfig_min_witness :
    SelectConfig (fun k => decide (k ≤ 8)) 16 = some (min 16 8) :=
  selectConfig_min 16 8 (by decide) (by decide)

end LLGL
